import Mathlib

/-!
Ticketing platform: pricing and booking core, shallow embedding

This file embeds the dynamic-pricing and transactional booking/cancellation
core of the ticketing-platform monorepo into Lean 4 and proves the spec's
claims about it.

Sources embedded:
* `apps/api/src/pricing/pricing.service.ts` — the weighted three-signal
  price model (`calculateCurrentPrice` with its time / demand / inventory
  adjustment helpers).
* `apps/api/src/bookings/bookings.service.ts` — the booking transaction
  (`create`), cancellation (`cancelBooking`), the bookings service's own
  `calculateDynamicPrice` (linear utilization model), input validation,
  rate limiting, and `clearBookingCaches`.
* `apps/api/src/redis/redis.service.ts` — the cache key conventions
  (`getEvent` / `getEventPrice` / `setEventPrice`) and `checkRateLimit`.
* the unnamed duplicate variant of the bookings service (its `create`
  persists the caller-supplied `amountPaid`).

JavaScript numbers are modelled as rationals (`ℚ`); `numeric(10,2)` database
columns and `toFixed(2)` / `Math.round(x*100)/100` become exact 2-decimal
rounding on `ℚ`.  Timestamps (`Date.getTime()`) are integers in milliseconds.
The database transaction becomes explicit state passing on a single-pool
system state; a thrown exception becomes `Except.error`, with the rollback
semantics of `db.transaction` reflected by returning no successor state on
error.
-/

namespace Ticketing

/-! ## Numeric primitives -/

/-- `Math.round(x * 100) / 100` and `x.toFixed(2)`: round to 2 decimal
places, half up (exact on rationals). -/
def round2 (x : ℚ) : ℚ := (⌊x * 100 + 1 / 2⌋ : ℚ) / 100

/-- `Math.max(floor, Math.min(ceiling, x))` — clamp a price into the
configured band. -/
def clampPrice (lo hi x : ℚ) : ℚ := max lo (min hi x)

/-- A rational is an exact amount of cents, as every `numeric(10,2)` column
value is. -/
def isCents (q : ℚ) : Prop := ∃ k : ℤ, q = (k : ℚ) / 100

/-! ## Data model (`packages/database/src/schema.ts`) -/

/-- One named pricing rule: a `(weight, adjustmentRate)` pair
(`pricingRules` jsonb column). -/
structure PricingRule where
  weight : ℚ
  adjustmentRate : ℚ
  deriving DecidableEq, Repr

/-- The three named rules of the `pricingRules` column. -/
structure PricingRules where
  timeBased : PricingRule
  demandBased : PricingRule
  inventoryBased : PricingRule
  deriving DecidableEq, Repr

/-- The fields of an `events` row that the pricing and booking paths read.
`date` is the event timestamp in milliseconds (`Date.getTime()`); the
`numeric(10,2)` price columns are parsed to rationals
(`parseFloat(event.basePrice)` etc.). -/
structure Event where
  capacity : ℤ
  bookedTickets : ℤ
  isActive : Bool
  date : ℤ
  basePrice : ℚ
  floorPrice : ℚ
  ceilingPrice : ℚ
  currentPrice : ℚ
  pricingRules : PricingRules
  deriving DecidableEq, Repr

/-- A `bookings` row.  `totalAmount` is the persisted `numeric(10,2)`
value; `id` is the primary key (uuid, modelled by a unique natural). -/
structure Booking where
  id : ℕ
  ticketCount : ℤ
  customerEmail : String
  totalAmount : ℚ
  deriving DecidableEq, Repr

/-! ## PricingService (`apps/api/src/pricing/pricing.service.ts`) -/

/-- Milliseconds per day: `1000 * 60 * 60 * 24`. -/
def msPerDay : ℤ := 1000 * 60 * 60 * 24

/-- `calculateTimeBasedAdjustment` (pricing.service.ts:110-133): tiered
multiplier of the rule's adjustment rate by days until the event.
`now` is the current time in milliseconds. -/
def calculateTimeBasedAdjustment (eventDate now : ℤ) (rule : PricingRule) : ℚ :=
  let timeUntilEvent := eventDate - now
  if timeUntilEvent < 0 then rule.adjustmentRate * 5
  else
    let daysUntilEvent : ℚ := (timeUntilEvent : ℚ) / (msPerDay : ℚ)
    if daysUntilEvent ≤ 1 then rule.adjustmentRate * 5
    else if daysUntilEvent ≤ 7 then rule.adjustmentRate * 2
    else if daysUntilEvent ≤ 30 then rule.adjustmentRate
    else 0

/-- `calculateDemandBasedAdjustment` (pricing.service.ts:135-170): tiered
multiplier by the count of bookings created in the trailing hour.  The
count is passed in (the db query result; a query failure is caught and
yields adjustment 0, i.e. the same value as count 0). -/
def calculateDemandBasedAdjustment (bookingCount : ℤ) (rule : PricingRule) : ℚ :=
  if bookingCount > 20 then rule.adjustmentRate * 3
  else if bookingCount > 10 then rule.adjustmentRate * 2
  else if bookingCount > 5 then rule.adjustmentRate
  else 0

/-- `calculateInventoryBasedAdjustment` (pricing.service.ts:172-194):
tiered multiplier by the remaining-inventory fraction
`(capacity - bookedTickets) / capacity`, with a division-by-zero guard. -/
def calculateInventoryBasedAdjustment (bookedTickets capacity : ℤ)
    (rule : PricingRule) : ℚ :=
  if capacity = 0 then 0
  else
    let remainingTickets := capacity - bookedTickets
    let inventoryFrac : ℚ := (remainingTickets : ℚ) / (capacity : ℚ)
    if inventoryFrac ≤ 1 / 10 then rule.adjustmentRate * 3
    else if inventoryFrac ≤ 2 / 10 then rule.adjustmentRate * (5 / 2)
    else if inventoryFrac ≤ 5 / 10 then rule.adjustmentRate
    else 0

/-- The breakdown object returned by `calculateCurrentPrice`
(pricing.service.ts:83-107), restricted to its numeric core. -/
structure PriceCalculationResult where
  basePrice : ℚ
  timeBasedAdjustment : ℚ
  demandBasedAdjustment : ℚ
  inventoryBasedAdjustment : ℚ
  totalAdjustment : ℚ
  finalPrice : ℚ
  deriving DecidableEq, Repr

/-- `calculateCurrentPrice` (pricing.service.ts:35-108) as a pure function
of the event row, the current time and the trailing-hour booking count:
weighted sum of the three adjustments applied to `basePrice`, clamped into
`[floorPrice, ceilingPrice]`, then `parseFloat(finalPrice.toFixed(2))`. -/
def calculateCurrentPrice (e : Event) (now demandCount : ℤ) :
    PriceCalculationResult :=
  let timeBasedAdjustment :=
    calculateTimeBasedAdjustment e.date now e.pricingRules.timeBased
  let demandBasedAdjustment :=
    calculateDemandBasedAdjustment demandCount e.pricingRules.demandBased
  let inventoryBasedAdjustment :=
    calculateInventoryBasedAdjustment e.bookedTickets e.capacity
      e.pricingRules.inventoryBased
  let totalAdjustment :=
    timeBasedAdjustment * e.pricingRules.timeBased.weight
      + demandBasedAdjustment * e.pricingRules.demandBased.weight
      + inventoryBasedAdjustment * e.pricingRules.inventoryBased.weight
  { basePrice := e.basePrice
    timeBasedAdjustment := timeBasedAdjustment
    demandBasedAdjustment := demandBasedAdjustment
    inventoryBasedAdjustment := inventoryBasedAdjustment
    totalAdjustment := totalAdjustment
    finalPrice :=
      round2 (clampPrice e.floorPrice e.ceilingPrice
        (e.basePrice * (1 + totalAdjustment))) }

/-! ## BookingsService (`apps/api/src/bookings/bookings.service.ts`) -/

/-- The errors the booking and cancellation paths throw.  `capacityExceeded`
carries the remaining count reported in the `ConflictException` message
`"Not enough tickets available. Only N tickets remaining."`. -/
inductive BookingError where
  | invalidTicketCount
  | tooManyTickets
  | invalidEmail
  | rateLimited
  | eventInactive
  | eventOccurred
  | capacityExceeded (remaining : ℤ)
  | bookingNotFound
  | notOwner
  deriving DecidableEq, Repr

/-- `isValidEmail` (bookings.service.ts:384-387): the test of the regex
`^[^\s@]+@[^\s@]+\.[^\s@]+$` — a nonempty local part without whitespace or
`@`, one `@`, and a domain without whitespace or `@` containing a dot with
at least one character on each side. -/
def isValidEmail (s : String) : Bool :=
  let cs := s.toList
  let localPart := cs.takeWhile (fun c => c ≠ '@')
  match cs.dropWhile (fun c => c ≠ '@') with
  | '@' :: domain =>
    !localPart.isEmpty && localPart.all (fun c => !c.isWhitespace)
      && !domain.isEmpty
      && domain.all (fun c => !c.isWhitespace && c ≠ '@')
      && (domain.drop 1).dropLast.contains '.'
  | _ => false

/-- `validateBookingInput` (bookings.service.ts:365-382): quantity in
`[1, MAX_TICKETS_PER_BOOKING = 10]` and a well-formed email, each failure
raising a `BadRequestException` in source order. -/
def validateBookingInput (ticketCount : ℤ) (customerEmail : String) :
    Option BookingError :=
  if ticketCount ≤ 0 then some .invalidTicketCount
  else if ticketCount > 10 then some .tooManyTickets
  else if !isValidEmail customerEmail then some .invalidEmail
  else none

/-- `calculateDynamicPrice` (bookings.service.ts:414-439): the bookings
service's own linear-utilization price model.  `utilWeight` is
`Number(process.env.HIGH_UTILIZATION_WEIGHT) || 1`.  The prospective
utilization `(bookedTickets + ticketCountChange) / capacity` scales
`basePrice`, then the result is clamped and rounded to 2 decimals. -/
def calculateDynamicPrice (utilWeight : ℚ) (e : Event)
    (ticketCountChange : ℤ) : ℚ :=
  let newBookedTickets := e.bookedTickets + ticketCountChange
  let utilizationRate : ℚ := (newBookedTickets : ℚ) / (e.capacity : ℚ)
  let newPrice := e.basePrice * (1 + utilizationRate * utilWeight)
  round2 (clampPrice e.floorPrice e.ceilingPrice newPrice)

/-- The single-pool system state threaded through the booking transactions:
the pool's `events` row, its surviving `bookings` rows, the Redis price
entry for the pool (`event:{id}:price`, the value `setEventPrice` wrote, or
`none` on miss/expiry), and the next fresh primary key. -/
structure SysState where
  event : Event
  bookings : List Booking
  priceCache : Option ℚ
  nextId : ℕ
  deriving DecidableEq, Repr

/-- The per-call environment: current time in milliseconds, the outcome of
the Redis rate-limit check, and the `HIGH_UTILIZATION_WEIGHT` value. -/
structure Env where
  now : ℤ
  rateLimitOk : Bool
  utilWeight : ℚ
  deriving DecidableEq, Repr

/-- What `create` returns to the caller (the spread booking row plus
`pricePerTicket`), restricted to its numeric core. -/
structure BookingReceipt where
  bookingId : ℕ
  totalAmount : ℚ
  pricePerTicket : ℚ
  deriving DecidableEq, Repr

/-- Price resolution inside `create` (bookings.service.ts:89-98): the
cached `event:{id}:price` value on a hit, `calculateDynamicPrice` with the
requested ticket count on a miss. -/
def resolvedPrice (env : Env) (st : SysState) (ticketCount : ℤ) : ℚ :=
  match st.priceCache with
  | some p => p
  | none => calculateDynamicPrice env.utilWeight st.event ticketCount

/-- The `bookings` row `create` inserts (bookings.service.ts:103-111):
`totalAmount = (pricePerTicket * ticketCount).toFixed(2)`. -/
def createdBooking (env : Env) (st : SysState) (ticketCount : ℤ)
    (customerEmail : String) : Booking :=
  { id := st.nextId, ticketCount := ticketCount
    customerEmail := customerEmail
    totalAmount := round2 (resolvedPrice env st ticketCount * (ticketCount : ℚ)) }

/-- The committed state of a successful `create`
(bookings.service.ts:103-127): the inserted row, the single-query event
update (`booked_tickets += ticketCount`,
`current_price = pricePerTicket.toFixed(2)`) and the `setEventPrice`
cache write of the unrounded `pricePerTicket`. -/
def createSuccessor (env : Env) (st : SysState) (ticketCount : ℤ)
    (customerEmail : String) : SysState :=
  { event := { st.event with
      bookedTickets := st.event.bookedTickets + ticketCount
      currentPrice := round2 (resolvedPrice env st ticketCount) }
    bookings := createdBooking env st ticketCount customerEmail :: st.bookings
    priceCache := some (resolvedPrice env st ticketCount)
    nextId := st.nextId + 1 }

/-- The value `create` returns (bookings.service.ts:129-135): the spread
inserted row with `totalAmount` parsed back, plus `pricePerTicket`. -/
def createReceipt (env : Env) (st : SysState) (ticketCount : ℤ) :
    BookingReceipt :=
  { bookingId := st.nextId
    totalAmount := round2 (resolvedPrice env st ticketCount * (ticketCount : ℚ))
    pricePerTicket := resolvedPrice env st ticketCount }

/-- `create` (bookings.service.ts:49-151).  In source order: input
validation, the rate-limit gate, then inside the `FOR UPDATE` transaction
the active/date checks (`validateEventForBooking`), the capacity check,
and the commit described by `createSuccessor`.  A thrown exception rolls
the transaction back, so an error carries no successor state. -/
def createBooking (env : Env) (st : SysState) (ticketCount : ℤ)
    (customerEmail : String) :
    Except BookingError (SysState × BookingReceipt) :=
  match validateBookingInput ticketCount customerEmail with
  | some e => .error e
  | none =>
    if !env.rateLimitOk then .error .rateLimited
    else if !st.event.isActive then .error .eventInactive
    else if env.now > st.event.date then .error .eventOccurred
    else if st.event.bookedTickets + ticketCount > st.event.capacity then
      .error (.capacityExceeded (st.event.capacity - st.event.bookedTickets))
    else
      .ok (createSuccessor env st ticketCount customerEmail,
        createReceipt env st ticketCount)

/-- What `cancelBooking` returns: the refund receipt. -/
structure CancelReceipt where
  bookingId : ℕ
  refundAmount : ℚ
  deriving DecidableEq, Repr

/-- `cancelBooking` (bookings.service.ts:277-362), parametrized by the
`events` row its plain (not `FOR UPDATE`) select observed.  In source
order: booking lookup, owner check, past-event check, booking delete, then
the event update writing `booked_tickets = snapshot.bookedTickets -
booking.ticketCount` and `current_price = newPrice.toFixed(2)` where
`newPrice = calculateDynamicPrice(snapshot, -ticketCount)`, and the
`setEventPrice` cache write.  Because the select takes no row lock, under
concurrency `snapshot` may be an earlier version of the row; the purely
sequential semantics is `cancelBooking` below, which instantiates the
snapshot with the current row.  This is the committed state
(bookings.service.ts:309-333). -/
def cancelSuccessor (env : Env) (st : SysState) (snapshot : Event)
    (booking : Booking) (bookingId : ℕ) : SysState :=
  { event := { st.event with
      bookedTickets := snapshot.bookedTickets - booking.ticketCount
      currentPrice :=
        round2 (calculateDynamicPrice env.utilWeight snapshot
          (-booking.ticketCount)) }
    bookings := st.bookings.filter (fun b => b.id ≠ bookingId)
    priceCache :=
      some (calculateDynamicPrice env.utilWeight snapshot
        (-booking.ticketCount))
    nextId := st.nextId }

def cancelBookingWithSnapshot (env : Env) (st : SysState) (snapshot : Event)
    (bookingId : ℕ) (customerEmail : String) :
    Except BookingError (SysState × CancelReceipt) :=
  match st.bookings.find? (fun b => b.id == bookingId) with
  | none => .error .bookingNotFound
  | some booking =>
    if booking.customerEmail ≠ customerEmail then .error .notOwner
    else if env.now > snapshot.date then .error .eventOccurred
    else
      .ok (cancelSuccessor env st snapshot booking bookingId,
        { bookingId := bookingId, refundAmount := booking.totalAmount })

/-- `cancelBooking` run without interference: the plain select observes the
current row. -/
def cancelBooking (env : Env) (st : SysState) (bookingId : ℕ)
    (customerEmail : String) :
    Except BookingError (SysState × CancelReceipt) :=
  cancelBookingWithSnapshot env st st.event bookingId customerEmail

/-- The state after a `create` call: the committed state on success, the
rolled-back (unchanged) state on error. -/
def applyCreate (env : Env) (st : SysState) (ticketCount : ℤ)
    (customerEmail : String) : SysState :=
  match createBooking env st ticketCount customerEmail with
  | .ok (st', _) => st'
  | .error _ => st

/-- The state after a `cancelBooking` call, with rollback on error. -/
def applyCancel (env : Env) (st : SysState) (bookingId : ℕ)
    (customerEmail : String) : SysState :=
  match cancelBooking env st bookingId customerEmail with
  | .ok (st', _) => st'
  | .error _ => st

/-- States reachable from `init` by any sequence of (possibly failing)
book and cancel calls on the pool. -/
inductive Reachable (init : SysState) : SysState → Prop where
  | refl : Reachable init init
  | create {st : SysState} (env : Env) (ticketCount : ℤ)
      (customerEmail : String) (h : Reachable init st) :
      Reachable init (applyCreate env st ticketCount customerEmail)
  | cancel {st : SysState} (env : Env) (bookingId : ℕ)
      (customerEmail : String) (h : Reachable init st) :
      Reachable init (applyCancel env st bookingId customerEmail)

/-- The total ticket count over the surviving bookings of the pool. -/
def sumTickets (bs : List Booking) : ℤ := (bs.map Booking.ticketCount).sum

/-! ## Invariants -/

/-- The pool invariant of the spec: consumed capacity is within
`[0, capacity]` and equals the sum of the surviving reservations'
quantities. -/
def PoolInvariant (st : SysState) : Prop :=
  0 ≤ st.event.bookedTickets ∧
  st.event.bookedTickets ≤ st.event.capacity ∧
  st.event.bookedTickets = sumTickets st.bookings

/-- Strengthening of `PoolInvariant` closed under both operations: every
surviving booking has a positive quantity and a primary key below the
next fresh one, and primary keys are pairwise distinct (the database's
uuid primary-key uniqueness). -/
def AuxInvariant (st : SysState) : Prop :=
  PoolInvariant st ∧
  (∀ b ∈ st.bookings, 1 ≤ b.ticketCount ∧ b.id < st.nextId) ∧
  (st.bookings.map Booking.id).Nodup

/-! ## Concrete pools, states and environments used by the closed theorems -/

/-- A concrete fresh pool used by the closed witnesses: capacity 10,
nothing booked, event one day out, integral prices. -/
def eventFresh : Event :=
  { capacity := 10, bookedTickets := 0, isActive := true
    date := msPerDay, basePrice := 100, floorPrice := 80
    ceilingPrice := 250, currentPrice := 100
    pricingRules :=
      { timeBased := { weight := 1, adjustmentRate := 0 }
        demandBased := { weight := 0, adjustmentRate := 0 }
        inventoryBased := { weight := 0, adjustmentRate := 0 } } }

def stateFresh : SysState :=
  { event := eventFresh, bookings := [], priceCache := none, nextId := 0 }

/-- A pool whose price columns are written as exact cent amounts, as the
`numeric(10,2)` schema stores them. -/
def eventCents : Event :=
  { capacity := 10, bookedTickets := 8, isActive := true
    date := 5 * msPerDay, basePrice := ((10000 : ℤ) : ℚ) / 100
    floorPrice := ((8000 : ℤ) : ℚ) / 100
    ceilingPrice := ((25000 : ℤ) : ℚ) / 100
    currentPrice := ((10000 : ℤ) : ℚ) / 100
    pricingRules :=
      { timeBased := { weight := 1 / 3, adjustmentRate := 1 / 10 }
        demandBased := { weight := 1 / 3, adjustmentRate := 1 / 10 }
        inventoryBased := { weight := 1 / 3, adjustmentRate := 1 / 10 } } }

/-! ## The inventory tier table -/

/-- The tier table of `calculateInventoryBasedAdjustment`, as a function
of the remaining-inventory fraction. -/
def invTier (r frac : ℚ) : ℚ :=
  if frac ≤ 1 / 10 then r * 3
  else if frac ≤ 2 / 10 then r * (5 / 2)
  else if frac ≤ 5 / 10 then r
  else 0

/-- A pool with integral pricing rules (inventory-only, weight 1,
adjustment rate 1) for the C8 witness. -/
def eventIntRules : Event :=
  { capacity := 10, bookedTickets := 0, isActive := true
    date := msPerDay, basePrice := 100, floorPrice := 80
    ceilingPrice := 250, currentPrice := 100
    pricingRules :=
      { timeBased := { weight := 0, adjustmentRate := 0 }
        demandBased := { weight := 0, adjustmentRate := 0 }
        inventoryBased := { weight := 1, adjustmentRate := 1 } } }

/-- The spec's §8 near-full pool: capacity 10 with 8 tickets booked. -/
def stateNearFull : SysState :=
  { event := { eventCents with bookedTickets := 8 }
    bookings := [], priceCache := none, nextId := 0 }

def envStd : Env := { now := 0, rateLimitOk := true, utilWeight := 1 }

/-! ## The unnamed variant of the bookings service

The repository carries a second, unnamed copy of the bookings service
whose `create` persists the caller-supplied `amountPaid` instead of
`pricePerTicket * ticketCount` (the latter computation is present there
but commented out).  Its dynamic-price helper also differs: it anchors at
the event's `currentPrice` and compounds. -/

/-- The unnamed variant's `calculateDynamicPrice`: inventory adjustment
from the prospective remaining fraction (flat rate at ≤ 20 % remaining,
`(1 - fraction) * rate` above), flat time tiers 0.5 / 0.2 / 0.1, demand
removed, weighted sum applied to the `currentPrice` anchor, rounded to 2
decimals and then clamped (rounding before the clamp, unlike the main
service). -/
def calculateDynamicPriceVariant (e : Event) (now : ℤ)
    (ticketCountChange : ℤ) : ℚ :=
  let newBookedTickets := e.bookedTickets + ticketCountChange
  let remaining := max (e.capacity - newBookedTickets) 0
  let remainingFrac : ℚ := (remaining : ℚ) / (e.capacity : ℚ)
  let inventoryAdjustment :=
    if remainingFrac ≤ 2 / 10 then
      e.pricingRules.inventoryBased.adjustmentRate
    else (1 - remainingFrac) * e.pricingRules.inventoryBased.adjustmentRate
  let daysUntilEvent : ℚ :=
    max (((e.date - now : ℤ) : ℚ) / (msPerDay : ℚ)) 0
  let timeAdjustment : ℚ :=
    if daysUntilEvent ≤ 1 then 1 / 2
    else if daysUntilEvent ≤ 7 then 1 / 5
    else if daysUntilEvent ≤ 30 then 1 / 10
    else 0
  let demandAdjustment : ℚ := 0
  let totalAdjustment :=
    e.pricingRules.timeBased.weight * timeAdjustment +
      e.pricingRules.inventoryBased.weight * inventoryAdjustment +
      e.pricingRules.demandBased.weight * demandAdjustment
  let newPrice := e.currentPrice * (1 + totalAdjustment)
  max e.floorPrice (min e.ceilingPrice (round2 newPrice))

/-- The unnamed variant's `create`: identical checks and event update, but
the inserted row's `totalAmount` is `amountPaid.toFixed(2)` — the
caller-supplied amount — and on a cache miss the price comes from
`calculateDynamicPriceVariant`. -/
def createBookingVariant (env : Env) (st : SysState) (ticketCount : ℤ)
    (customerEmail : String) (amountPaid : ℚ) :
    Except BookingError (SysState × BookingReceipt) :=
  match validateBookingInput ticketCount customerEmail with
  | some e => .error e
  | none =>
    if !env.rateLimitOk then .error .rateLimited
    else if !st.event.isActive then .error .eventInactive
    else if env.now > st.event.date then .error .eventOccurred
    else if st.event.bookedTickets + ticketCount > st.event.capacity then
      .error (.capacityExceeded (st.event.capacity - st.event.bookedTickets))
    else
      let pricePerTicket :=
        match st.priceCache with
        | some p => p
        | none => calculateDynamicPriceVariant st.event env.now ticketCount
      let booking : Booking :=
        { id := st.nextId, ticketCount := ticketCount
          customerEmail := customerEmail
          totalAmount := round2 amountPaid }
      let st' : SysState :=
        { event := { st.event with
            bookedTickets := st.event.bookedTickets + ticketCount
            currentPrice := pricePerTicket }
          bookings := booking :: st.bookings
          priceCache := some pricePerTicket
          nextId := st.nextId + 1 }
      .ok (st', { bookingId := st.nextId
                  totalAmount := round2 amountPaid
                  pricePerTicket := pricePerTicket })

/-- The fresh pool with a warm price cache holding 50.00 per ticket. -/
def stateCacheHit : SysState :=
  { event := eventFresh, bookings := [], priceCache := some 50, nextId := 0 }

/-! ## The cache, as key-to-write-epoch maps

The cache is modelled as a map from key strings to the epoch of the write
that produced the entry; entries written before a booking transaction
carry an older epoch. -/

def Cache : Type := String → Option ℕ

/-- `cacheManager.set` under a key (redis.service.ts:143-158). -/
def cacheSet (k : String) (epoch : ℕ) (c : Cache) : Cache :=
  fun x => if x = k then some epoch else c x

/-- `cacheManager.del` of one key (redis.service.ts:160-175). -/
def cacheDel (k : String) (c : Cache) : Cache :=
  fun x => if x = k then none else c x

/-- `Promise.allSettled(cacheKeys.map(key => del(key)))`. -/
def cacheDelAll (ks : List String) (c : Cache) : Cache :=
  ks.foldl (fun acc k => cacheDel k acc) c

/-- The key `getEventPrice` / `setEventPrice` use
(redis.service.ts:260-276): `event:{id}:price`.  This is the cache read
of the booking path (bookings.service.ts:91) and of `getCurrentPrice`
(bookings.service.ts:441-466). -/
def eventPriceKey (eventId : String) : String :=
  "event:" ++ eventId ++ ":price"

/-- The key `getEvent` / `setEvent` use (redis.service.ts:242-258):
`event:{id}`, the pool snapshot `EventsService.findOne` serves. -/
def eventSnapshotKey (eventId : String) : String := "event:" ++ eventId

/-- The key `EventsService.findAll` caches the event list under. -/
def eventsAllKey : String := "events:all"

/-- The key `findByEvent` caches the pool's reservation list under
(bookings.service.ts:154). -/
def bookingsByEventKey (eventId : String) : String :=
  "bookings:event:" ++ eventId

/-- The key `findByCustomer` caches the customer's reservation list under
(bookings.service.ts:193). -/
def bookingsByCustomerKey (email : String) : String :=
  "bookings:customer:" ++ email

/-- The key `getBookingStats` caches the pool's aggregate stats under
(bookings.service.ts:240). -/
def bookingStatsKey (eventId : String) : String :=
  "booking_stats:" ++ eventId

/-- Every cache key from which a read path for this pool (price, pool
snapshot, event list, reservation lists, stats) can be served. -/
def readPathKeys (eventId email : String) : List String :=
  [eventPriceKey eventId, eventSnapshotKey eventId, eventsAllKey,
   bookingsByEventKey eventId, bookingsByCustomerKey email,
   bookingStatsKey eventId]

/-- The key list `clearBookingCaches` deletes
(bookings.service.ts:473-480). -/
def clearBookingCachesKeys (eventId email : String) : List String :=
  ["events:" ++ eventId, "events:all", "bookings:event:" ++ eventId,
   "bookings:customer:" ++ email, "booking_stats:" ++ eventId,
   "event_price:" ++ eventId]

/-- The cache after a committed `create` at write epoch `epoch`
(bookings.service.ts:123-127): `setEventPrice` overwrites the price key,
then `clearBookingCaches` deletes its key list. -/
def postBookCache (eventId email : String) (epoch : ℕ) (c : Cache) :
    Cache :=
  cacheDelAll (clearBookingCachesKeys eventId email)
    (cacheSet (eventPriceKey eventId) epoch c)

/-- A cache holding one pre-transaction entry: the pool snapshot of event
`e1`, written at epoch 0. -/
def staleSnapshotCache : Cache :=
  fun k => if k = eventSnapshotKey "e1" then some 0 else none

/-! ## The lock shape of the row reads of the transactions -/

/-- The shape of a row read: which table, and whether the select takes
the row's exclusive lock (`.for("update")`). -/
structure SelectQuery where
  table : String
  forUpdate : Bool
  deriving DecidableEq, Repr

/-- bookings.service.ts:58-73 — the event read in `create`, with
`.for("update")`. -/
def createEventSelect : SelectQuery := { table := "events", forUpdate := true }

/-- bookings.service.ts:281-284 — the booking lookup in `cancelBooking`,
a plain select. -/
def cancelBookingSelect : SelectQuery :=
  { table := "bookings", forUpdate := false }

/-- bookings.service.ts:297-300 — the event read in `cancelBooking`, a
plain select with no `.for("update")`. -/
def cancelEventSelect : SelectQuery := { table := "events", forUpdate := false }

/-- A pool with 5 booked tickets across two reservations, for the
lost-update interleaving below. -/
def stateTwoBookings : SysState :=
  { event := { eventFresh with bookedTickets := 5 }
    bookings :=
      [{ id := 1, ticketCount := 2, customerEmail := "a@b.com"
         totalAmount := 200 },
       { id := 2, ticketCount := 3, customerEmail := "a@b.com"
         totalAmount := 300 }]
    priceCache := none, nextId := 3 }

/-! ## RedisService rate limiting (`apps/api/src/redis/redis.service.ts`) -/

/-- The cache backend state seen by `RedisService`: the `isConnected`
flag, whether operations currently throw, and the timestamp list stored
under the rate-limit key. -/
structure RedisState where
  isConnected : Bool
  opFails : Bool
  store : Option (List ℤ)
  deriving DecidableEq, Repr

/-- `get` (redis.service.ts:126-141): `null` when disconnected, and its
catch block maps a thrown error to `null` as well. -/
def redisGet (r : RedisState) : Option (List ℤ) :=
  if !r.isConnected then none
  else if r.opFails then none
  else r.store

/-- `checkRateLimit` (redis.service.ts:292-340): `true` straight away
when disconnected; otherwise read the timestamp list (`null` → `[]`),
keep the entries inside the window, refuse only when at least `limit`
remain; the re-add `set` outcome is ignored and a thrown error is caught
returning `true`. -/
def redisCheckRateLimit (r : RedisState) (limit : ℕ) (windowMs now : ℤ) :
    Bool :=
  if !r.isConnected then true
  else
    let windowStart := now - windowMs
    let requests := (redisGet r).getD []
    let recentRequests := requests.filter (fun time => time > windowStart)
    if limit ≤ recentRequests.length then false
    else true

/-- The booking service's `checkRateLimit` (bookings.service.ts:389-402)
with `RATE_LIMIT_COUNT = 5` and `RATE_LIMIT_WINDOW_MS = 60000`, throwing
`BadGatewayException` when refused. -/
def bookingsCheckRateLimit (r : RedisState) (now : ℤ) :
    Except BookingError Unit :=
  if redisCheckRateLimit r 5 60000 now then .ok () else .error .rateLimited

/-- A disconnected cache backend that still holds five recent timestamps:
the rate limit would refuse if it could read them. -/
def redisDown : RedisState :=
  { isConnected := false, opFails := false
    store := some [0, 0, 0, 0, 0] }

/-! ## Arithmetic helpers -/

theorem round2_mono {x y : ℚ} (h : x ≤ y) : round2 x ≤ round2 y := by
  unfold round2
  have hf : (⌊x * 100 + 1 / 2⌋ : ℤ) ≤ ⌊y * 100 + 1 / 2⌋ := by
    apply Int.floor_le_floor
    linarith
  have : ((⌊x * 100 + 1 / 2⌋ : ℤ) : ℚ) ≤ ((⌊y * 100 + 1 / 2⌋ : ℤ) : ℚ) := by
    exact_mod_cast hf
  linarith

theorem round2_cents {q : ℚ} (h : isCents q) : round2 q = q := by
  obtain ⟨k, rfl⟩ := h
  unfold round2
  have h100 : (k : ℚ) / 100 * 100 + 1 / 2 = (1 / 2 : ℚ) + (k : ℚ) := by ring
  rw [h100, Int.floor_add_int]
  norm_num

theorem clampPrice_bounds {lo hi x : ℚ} (h : lo ≤ hi) :
    lo ≤ clampPrice lo hi x ∧ clampPrice lo hi x ≤ hi := by
  unfold clampPrice
  constructor
  · exact le_max_left lo (min hi x)
  · exact max_le h (min_le_left hi x)

theorem clampPrice_mono {lo hi x y : ℚ} (h : x ≤ y) :
    clampPrice lo hi x ≤ clampPrice lo hi y := by
  unfold clampPrice
  exact max_le_max le_rfl (min_le_min le_rfl h)

/-! ## Characterizations of the booking operations -/

theorem validateBookingInput_none_iff {t : ℤ} {em : String} :
    validateBookingInput t em = none ↔
      1 ≤ t ∧ t ≤ 10 ∧ isValidEmail em = true := by
  unfold validateBookingInput
  split_ifs with h1 h2 h3 <;> simp_all <;> omega

theorem createBooking_ok_iff {env : Env} {st : SysState} {t : ℤ}
    {em : String} {st' : SysState} {r : BookingReceipt} :
    createBooking env st t em = .ok (st', r) ↔
      validateBookingInput t em = none ∧ env.rateLimitOk = true ∧
      st.event.isActive = true ∧ env.now ≤ st.event.date ∧
      st.event.bookedTickets + t ≤ st.event.capacity ∧
      st' = createSuccessor env st t em ∧ r = createReceipt env st t := by
  unfold createBooking
  cases hval : validateBookingInput t em with
  | some e => simp [hval]
  | none =>
    split_ifs with h1 h2 h3 h4
    · rw [Bool.not_eq_true'] at h1
      simp [h1]
    · rw [Bool.not_eq_true'] at h2
      simp [h2]
    · simp [not_le.mpr h3]
    · simp [not_le.mpr h4]
    · have hr : env.rateLimitOk = true := by
        cases hb : env.rateLimitOk
        · rw [hb] at h1
          simp at h1
        · rfl
      have ha : st.event.isActive = true := by
        cases hb : st.event.isActive
        · rw [hb] at h2
          simp at h2
        · rfl
      simp [hr, ha, not_lt.mp h3, not_lt.mp h4, Prod.ext_iff, eq_comm]

theorem createBooking_capacity_error {env : Env} {st : SysState} {t : ℤ}
    {em : String} (hval : validateBookingInput t em = none)
    (hrate : env.rateLimitOk = true) (hact : st.event.isActive = true)
    (hdate : env.now ≤ st.event.date)
    (hcap : st.event.capacity < st.event.bookedTickets + t) :
    createBooking env st t em =
      .error (.capacityExceeded
        (st.event.capacity - st.event.bookedTickets)) := by
  unfold createBooking
  rw [hval]
  simp [hrate, hact, not_lt.mpr hdate, hcap]

theorem cancelBookingWithSnapshot_ok_iff {env : Env} {st : SysState}
    {snapshot : Event} {bid : ℕ} {em : String} {st' : SysState}
    {c : CancelReceipt} :
    cancelBookingWithSnapshot env st snapshot bid em = .ok (st', c) ↔
      ∃ b, st.bookings.find? (fun x => x.id == bid) = some b ∧
        b.customerEmail = em ∧ env.now ≤ snapshot.date ∧
        st' = cancelSuccessor env st snapshot b bid ∧
        c = { bookingId := bid, refundAmount := b.totalAmount } := by
  unfold cancelBookingWithSnapshot
  cases hfind : st.bookings.find? (fun x => x.id == bid) with
  | none => simp [hfind]
  | some b =>
    by_cases hmail : b.customerEmail = em
    · by_cases hdate : env.now > snapshot.date
      · simp [hmail, hdate, not_le.mpr hdate]
      · simp [hmail, hdate, not_lt.mp hdate, Prod.ext_iff, eq_comm]
    · simp [hmail]

/-! ## Preservation of the no-overselling invariant -/

theorem sumTickets_cons (b : Booking) (bs : List Booking) :
    sumTickets (b :: bs) = b.ticketCount + sumTickets bs := by
  simp [sumTickets]

theorem sumTickets_nonneg {bs : List Booking}
    (h : ∀ b ∈ bs, 1 ≤ b.ticketCount) : 0 ≤ sumTickets bs := by
  induction bs with
  | nil => simp [sumTickets]
  | cons hd tl ih =>
    rw [sumTickets_cons]
    have h1 := h hd (List.mem_cons_self hd tl)
    have h2 := ih fun b hb => h b (List.mem_cons_of_mem hd hb)
    omega

theorem sumTickets_filter_of_find? {bs : List Booking} {bid : ℕ}
    {b : Booking}
    (hfind : bs.find? (fun x => x.id == bid) = some b)
    (hnd : (bs.map Booking.id).Nodup) :
    sumTickets (bs.filter (fun x => x.id ≠ bid)) =
      sumTickets bs - b.ticketCount := by
  induction bs with
  | nil => simp at hfind
  | cons hd tl ih =>
    rw [List.map_cons, List.nodup_cons] at hnd
    by_cases hid : hd.id = bid
    · have hbeq : (hd.id == bid) = true := by simpa using hid
      rw [List.find?_cons, hbeq] at hfind
      have hb : hd = b := by
        injection hfind
      have htl : tl.filter (fun x => x.id ≠ bid) = tl := by
        apply List.filter_eq_self.mpr
        intro x hx
        have hmem : x.id ∈ tl.map Booking.id :=
          List.mem_map_of_mem Booking.id hx
        have hne : x.id ≠ hd.id := fun hEq => hnd.1 (hEq ▸ hmem)
        simpa using hid ▸ hne
      rw [List.filter_cons_of_neg (by simp [hid]), htl, sumTickets_cons,
        ← hb]
      omega
    · have hbeq : (hd.id == bid) = false := by simpa using hid
      rw [List.find?_cons, hbeq] at hfind
      rw [List.filter_cons_of_pos (by simp [hid]), sumTickets_cons,
        sumTickets_cons, ih hfind hnd.2]
      omega

theorem auxInvariant_applyCreate (env : Env) (st : SysState) (t : ℤ)
    (em : String) (h : AuxInvariant st) :
    AuxInvariant (applyCreate env st t em) := by
  unfold applyCreate
  cases hc : createBooking env st t em with
  | error e => exact h
  | ok pr =>
    obtain ⟨st', r⟩ := pr
    obtain ⟨hval, -, -, -, hcap, rfl, -⟩ := createBooking_ok_iff.mp hc
    obtain ⟨ht1, -, -⟩ := validateBookingInput_none_iff.mp hval
    obtain ⟨⟨hb0, hbc, hbs⟩, hall, hnd⟩ := h
    show AuxInvariant (createSuccessor env st t em)
    refine ⟨⟨?_, ?_, ?_⟩, ?_, ?_⟩
    · show (0 : ℤ) ≤ st.event.bookedTickets + t
      omega
    · show st.event.bookedTickets + t ≤ st.event.capacity
      omega
    · show st.event.bookedTickets + t =
        sumTickets (createdBooking env st t em :: st.bookings)
      rw [sumTickets_cons]
      simp only [createdBooking]
      omega
    · show ∀ b ∈ createdBooking env st t em :: st.bookings,
        1 ≤ b.ticketCount ∧ b.id < st.nextId + 1
      intro b hb
      rcases List.mem_cons.mp hb with rfl | hmem
      · exact ⟨ht1, by simp [createdBooking]⟩
      · have := hall b hmem
        exact ⟨this.1, by omega⟩
    · show ((createdBooking env st t em :: st.bookings).map Booking.id).Nodup
      rw [List.map_cons, List.nodup_cons]
      refine ⟨?_, hnd⟩
      intro hmem
      obtain ⟨b, hb, hid⟩ := List.mem_map.mp hmem
      have := (hall b hb).2
      simp [createdBooking] at hid
      omega

theorem auxInvariant_applyCancel (env : Env) (st : SysState) (bid : ℕ)
    (em : String) (h : AuxInvariant st) :
    AuxInvariant (applyCancel env st bid em) := by
  unfold applyCancel cancelBooking
  cases hc : cancelBookingWithSnapshot env st st.event bid em with
  | error e => exact h
  | ok pr =>
    obtain ⟨st', c⟩ := pr
    obtain ⟨b, hfind, -, -, rfl, -⟩ :=
      cancelBookingWithSnapshot_ok_iff.mp hc
    obtain ⟨⟨hb0, hbc, hbs⟩, hall, hnd⟩ := h
    have hbmem : b ∈ st.bookings := List.mem_of_find?_eq_some hfind
    have hbq : 1 ≤ b.ticketCount := (hall b hbmem).1
    have hsub :
        (st.bookings.filter (fun x => x.id ≠ bid)).Sublist st.bookings :=
      List.filter_sublist st.bookings
    have hsum := sumTickets_filter_of_find? hfind hnd
    have hpos : 0 ≤ sumTickets (st.bookings.filter (fun x => x.id ≠ bid)) :=
      sumTickets_nonneg fun x hx => (hall x (hsub.mem hx)).1
    show AuxInvariant (cancelSuccessor env st st.event b bid)
    refine ⟨⟨?_, ?_, ?_⟩, ?_, ?_⟩
    · show (0 : ℤ) ≤ st.event.bookedTickets - b.ticketCount
      omega
    · show st.event.bookedTickets - b.ticketCount ≤ st.event.capacity
      omega
    · show st.event.bookedTickets - b.ticketCount =
        sumTickets (st.bookings.filter (fun x => x.id ≠ bid))
      omega
    · intro x hx
      exact hall x (hsub.mem hx)
    · exact hnd.sublist (hsub.map Booking.id)

theorem auxInvariant_reachable {init st : SysState}
    (h0 : AuxInvariant init) (h : Reachable init st) : AuxInvariant st := by
  induction h with
  | refl => exact h0
  | create env t em _ ih => exact auxInvariant_applyCreate env _ t em ih
  | cancel env bid em _ ih => exact auxInvariant_applyCancel env _ bid em ih

/-! ## Claim C1 -/

/-- C1.  No overselling (sequential form): from a fresh pool every state
reachable by book and cancel calls satisfies
`0 ≤ bookedTickets ≤ capacity` with `bookedTickets` equal to the sum of
`ticketCount` over the surviving bookings; an over-capacity book is
rejected and leaves the state unchanged; a successful book inserts the
reservation and increments `bookedTickets` by exactly its quantity in the
same transaction; a successful cancel deletes the reservation and
decrements `bookedTickets` by its quantity in the same transaction. -/
theorem no_overselling
    (init : SysState) (hbooked : init.event.bookedTickets = 0)
    (hbookings : init.bookings = []) (hcap : 0 ≤ init.event.capacity) :
    (∀ st, Reachable init st →
      0 ≤ st.event.bookedTickets ∧
      st.event.bookedTickets ≤ st.event.capacity ∧
      st.event.bookedTickets = sumTickets st.bookings) ∧
    (∀ env st t em, st.event.capacity < st.event.bookedTickets + t →
      (∃ e, createBooking env st t em = .error e) ∧
      applyCreate env st t em = st) ∧
    (∀ env st t em st' r, createBooking env st t em = .ok (st', r) →
      st'.event.bookedTickets = st.event.bookedTickets + t ∧
      st'.bookings = createdBooking env st t em :: st.bookings ∧
      (createdBooking env st t em).ticketCount = t) ∧
    (∀ env st bid em st' c, cancelBooking env st bid em = .ok (st', c) →
      ∃ b, st.bookings.find? (fun x => x.id == bid) = some b ∧
        st'.event.bookedTickets = st.event.bookedTickets - b.ticketCount ∧
        st'.bookings = st.bookings.filter (fun x => x.id ≠ bid)) := by
  refine ⟨?_, ?_, ?_, ?_⟩
  · intro st hreach
    have h0 : AuxInvariant init := by
      refine ⟨⟨by omega, by omega, ?_⟩, ?_, ?_⟩
      · rw [hbooked, hbookings]
        simp [sumTickets]
      · rw [hbookings]
        simp
      · rw [hbookings]
        simp
    exact (auxInvariant_reachable h0 hreach).1
  · intro env st t em hover
    cases hc : createBooking env st t em with
    | error e =>
      refine ⟨⟨e, rfl⟩, ?_⟩
      unfold applyCreate
      rw [hc]
    | ok pr =>
      exfalso
      obtain ⟨st', r⟩ := pr
      have := (createBooking_ok_iff.mp hc).2.2.2.2.1
      omega
  · intro env st t em st' r hc
    obtain ⟨-, -, -, -, -, rfl, -⟩ := createBooking_ok_iff.mp hc
    exact ⟨rfl, rfl, rfl⟩
  · intro env st bid em st' c hc
    obtain ⟨b, hfind, -, -, rfl, -⟩ :=
      cancelBookingWithSnapshot_ok_iff.mp hc
    exact ⟨b, hfind, rfl, rfl⟩

/-- Closed witness for C1 at the concrete fresh pool. -/
theorem no_overselling_witness :
    0 ≤ stateFresh.event.bookedTickets ∧
    stateFresh.event.bookedTickets ≤ stateFresh.event.capacity ∧
    stateFresh.event.bookedTickets = sumTickets stateFresh.bookings :=
  (no_overselling stateFresh rfl rfl (by decide)).1 stateFresh .refl

/-! ## Claim C4 -/

theorem calculateCurrentPrice_finalPrice (e : Event) (now demandCount : ℤ) :
    (calculateCurrentPrice e now demandCount).finalPrice =
      round2 (clampPrice e.floorPrice e.ceilingPrice
        (e.basePrice *
          (1 + (calculateCurrentPrice e now demandCount).totalAdjustment))) :=
  rfl

/-- C4.  Price bounds: on every pool whose floor and ceiling prices are
`numeric(10,2)` values — exact cent amounts `fl / 100` and `ce / 100` —
with floor at most ceiling, the `finalPrice` of `calculateCurrentPrice`
lies in `[floorPrice, ceilingPrice]`, the 2-decimal rounding after the
clamp included. -/
theorem price_bounds (e : Event) (now demandCount : ℤ) (fl ce : ℤ)
    (hfl : e.floorPrice = (fl : ℚ) / 100)
    (hce : e.ceilingPrice = (ce : ℚ) / 100)
    (hfc : fl ≤ ce) :
    e.floorPrice ≤ (calculateCurrentPrice e now demandCount).finalPrice ∧
    (calculateCurrentPrice e now demandCount).finalPrice ≤ e.ceilingPrice := by
  have hle : e.floorPrice ≤ e.ceilingPrice := by
    rw [hfl, hce]
    have : (fl : ℚ) ≤ (ce : ℚ) := Int.cast_le.mpr hfc
    linarith
  rw [calculateCurrentPrice_finalPrice]
  obtain ⟨hlo, hhi⟩ := @clampPrice_bounds e.floorPrice e.ceilingPrice
    (e.basePrice *
      (1 + (calculateCurrentPrice e now demandCount).totalAdjustment)) hle
  constructor
  · calc e.floorPrice = round2 e.floorPrice :=
          (round2_cents ⟨fl, hfl⟩).symm
      _ ≤ _ := round2_mono hlo
  · calc round2 _ ≤ round2 e.ceilingPrice := round2_mono hhi
      _ = e.ceilingPrice := round2_cents ⟨ce, hce⟩

/-- Closed witness for C4 at the concrete cent-valued pool. -/
theorem price_bounds_witness :
    eventCents.floorPrice ≤ (calculateCurrentPrice eventCents 0 0).finalPrice ∧
    (calculateCurrentPrice eventCents 0 0).finalPrice ≤
      eventCents.ceilingPrice :=
  price_bounds eventCents 0 0 8000 25000 rfl rfl (by decide)

/-! ## Claim C8 -/

theorem calculateInventoryBasedAdjustment_eq_invTier
    (bookedTickets capacity : ℤ) (rule : PricingRule) :
    calculateInventoryBasedAdjustment bookedTickets capacity rule =
      if capacity = 0 then 0
      else invTier rule.adjustmentRate
        (((capacity - bookedTickets : ℤ) : ℚ) / (capacity : ℚ)) :=
  rfl

theorem invTier_antitone {r f1 f2 : ℚ} (hr : 0 ≤ r) (h : f1 ≤ f2) :
    invTier r f2 ≤ invTier r f1 := by
  unfold invTier
  split_ifs <;> linarith

theorem calculateInventoryBasedAdjustment_mono {b1 b2 capacity : ℤ}
    {rule : PricingRule} (hcap : 0 ≤ capacity)
    (hr : 0 ≤ rule.adjustmentRate) (h12 : b1 ≤ b2) :
    calculateInventoryBasedAdjustment b1 capacity rule ≤
      calculateInventoryBasedAdjustment b2 capacity rule := by
  rw [calculateInventoryBasedAdjustment_eq_invTier,
    calculateInventoryBasedAdjustment_eq_invTier]
  by_cases hz : capacity = 0
  · simp [hz]
  · rw [if_neg hz, if_neg hz]
    have hpos : (0 : ℚ) < (capacity : ℚ) := by
      have : 0 < capacity := lt_of_le_of_ne hcap (Ne.symm hz)
      exact_mod_cast this
    apply invTier_antitone hr
    apply (div_le_div_iff_of_pos_right hpos).mpr
    exact_mod_cast sub_le_sub_left h12 capacity

theorem calculateCurrentPrice_totalAdjustment (e : Event)
    (now demandCount : ℤ) :
    (calculateCurrentPrice e now demandCount).totalAdjustment =
      calculateTimeBasedAdjustment e.date now e.pricingRules.timeBased *
          e.pricingRules.timeBased.weight +
        calculateDemandBasedAdjustment demandCount e.pricingRules.demandBased *
          e.pricingRules.demandBased.weight +
        calculateInventoryBasedAdjustment e.bookedTickets e.capacity
            e.pricingRules.inventoryBased *
          e.pricingRules.inventoryBased.weight :=
  rfl

/-- C8.  Monotonic inventory pressure: with the event date, demand count,
capacity, price band and pricing rules held fixed, the `finalPrice` of
`calculateCurrentPrice` is non-decreasing in `bookedTickets`. -/
theorem monotone_inventory_pressure (e : Event) (now demandCount b1 b2 : ℤ)
    (hcap : 0 ≤ e.capacity)
    (hw : 0 ≤ e.pricingRules.inventoryBased.weight)
    (hr : 0 ≤ e.pricingRules.inventoryBased.adjustmentRate)
    (hbase : 0 ≤ e.basePrice) (h12 : b1 ≤ b2) :
    (calculateCurrentPrice { e with bookedTickets := b1 }
      now demandCount).finalPrice ≤
    (calculateCurrentPrice { e with bookedTickets := b2 }
      now demandCount).finalPrice := by
  rw [calculateCurrentPrice_finalPrice, calculateCurrentPrice_finalPrice]
  apply round2_mono
  apply clampPrice_mono
  apply mul_le_mul_of_nonneg_left _ hbase
  rw [calculateCurrentPrice_totalAdjustment,
    calculateCurrentPrice_totalAdjustment]
  dsimp only
  have hmono := mul_le_mul_of_nonneg_right
    (@calculateInventoryBasedAdjustment_mono b1 b2 e.capacity
      e.pricingRules.inventoryBased hcap hr h12) hw
  linarith

/-- Closed witness for C8: more consumed capacity never lowers the price. -/
theorem monotone_inventory_pressure_witness :
    (calculateCurrentPrice { eventIntRules with bookedTickets := 3 }
      0 0).finalPrice ≤
    (calculateCurrentPrice { eventIntRules with bookedTickets := 7 }
      0 0).finalPrice :=
  monotone_inventory_pressure eventIntRules 0 0 3 7 (by decide) (by decide)
    (by decide) (by decide) (by decide)

/-! ## Claim C5 -/

/-- C5.  An otherwise-valid book whose quantity would exceed capacity
fails with the `ConflictException` reporting exactly
`capacity - bookedTickets` tickets remaining, and leaves the pool state —
`bookedTickets` and the booking set — unchanged. -/
theorem capacity_exceeded_reports_remaining (env : Env) (st : SysState)
    (t : ℤ) (em : String)
    (h1 : 1 ≤ t) (h2 : t ≤ 10) (h3 : isValidEmail em = true)
    (h4 : env.rateLimitOk = true) (h5 : st.event.isActive = true)
    (h6 : env.now ≤ st.event.date)
    (h7 : st.event.capacity < st.event.bookedTickets + t) :
    createBooking env st t em =
      .error (.capacityExceeded
        (st.event.capacity - st.event.bookedTickets)) ∧
    applyCreate env st t em = st := by
  have hval : validateBookingInput t em = none :=
    validateBookingInput_none_iff.mpr ⟨h1, h2, h3⟩
  have herr := createBooking_capacity_error hval h4 h5 h6 h7
  refine ⟨herr, ?_⟩
  unfold applyCreate
  rw [herr]

/-- Closed witness for C5: booking 3 of the 2 remaining tickets reports
"2 remaining" and `bookedTickets` stays 8. -/
theorem capacity_exceeded_witness :
    (createBooking envStd stateNearFull 3 "a@b.com" =
      .error (.capacityExceeded
        (stateNearFull.event.capacity - stateNearFull.event.bookedTickets)) ∧
    applyCreate envStd stateNearFull 3 "a@b.com" = stateNearFull) ∧
    stateNearFull.event.capacity - stateNearFull.event.bookedTickets = 2 ∧
    stateNearFull.event.bookedTickets = 8 :=
  ⟨capacity_exceeded_reports_remaining envStd stateNearFull 3 "a@b.com"
    (by decide) (by decide) (by decide) rfl rfl (by decide) (by decide),
   by decide, rfl⟩

/-! ## Claim C7 -/

/-- C7.  Cancel reverses book: a successful book immediately followed by a
cancel of that reservation by its owner (event still in the future, no
other activity on the pool) restores `bookedTickets` to its pre-book
value, removes the reservation, and refunds exactly the reservation's
persisted `totalAmount`. -/
theorem cancel_reverses_book (env env2 : Env) (st : SysState) (t : ℤ)
    (em : String)
    (h1 : 1 ≤ t) (h2 : t ≤ 10) (h3 : isValidEmail em = true)
    (h4 : env.rateLimitOk = true) (h5 : st.event.isActive = true)
    (h6 : env.now ≤ st.event.date)
    (h7 : st.event.bookedTickets + t ≤ st.event.capacity)
    (h8 : ∀ b ∈ st.bookings, b.id < st.nextId)
    (h9 : env2.now ≤ st.event.date) :
    ∃ st1 r st2 c,
      createBooking env st t em = .ok (st1, r) ∧
      cancelBooking env2 st1 r.bookingId em = .ok (st2, c) ∧
      st2.event.bookedTickets = st.event.bookedTickets ∧
      st2.bookings = st.bookings ∧
      c.refundAmount = r.totalAmount := by
  have hval : validateBookingInput t em = none :=
    validateBookingInput_none_iff.mpr ⟨h1, h2, h3⟩
  refine ⟨createSuccessor env st t em, createReceipt env st t,
    cancelSuccessor env2 (createSuccessor env st t em)
      (createSuccessor env st t em).event (createdBooking env st t em)
      (createReceipt env st t).bookingId,
    { bookingId := (createReceipt env st t).bookingId
      refundAmount := (createdBooking env st t em).totalAmount },
    createBooking_ok_iff.mpr ⟨hval, h4, h5, h6, h7, rfl, rfl⟩, ?_, ?_, ?_, ?_⟩
  · apply cancelBookingWithSnapshot_ok_iff.mpr
    refine ⟨createdBooking env st t em, ?_, rfl, h9, rfl, rfl⟩
    apply List.find?_cons_of_pos
    simp [createdBooking, createReceipt]
  · show st.event.bookedTickets + t - (createdBooking env st t em).ticketCount =
      st.event.bookedTickets
    simp [createdBooking]
  · show (createdBooking env st t em :: st.bookings).filter
      (fun b => b.id ≠ (createReceipt env st t).bookingId) = st.bookings
    rw [List.filter_cons_of_neg (by simp [createdBooking, createReceipt])]
    apply List.filter_eq_self.mpr
    intro b hb
    have := h8 b hb
    simp only [createReceipt, decide_eq_true_eq]
    omega
  · rfl

/-- Closed witness for C7 on the fresh pool: book 2 tickets, cancel them,
and the pool is back where it started. -/
theorem cancel_reverses_book_witness :
    ∃ st1 r st2 c,
      createBooking envStd stateFresh 2 "a@b.com" = .ok (st1, r) ∧
      cancelBooking envStd st1 r.bookingId "a@b.com" = .ok (st2, c) ∧
      st2.event.bookedTickets = stateFresh.event.bookedTickets ∧
      st2.bookings = stateFresh.bookings ∧
      c.refundAmount = r.totalAmount :=
  cancel_reverses_book envStd envStd stateFresh 2 "a@b.com"
    (by decide) (by decide) (by decide) rfl rfl (by decide) (by decide)
    (by decide) (by decide)

/-! ## Claim C3 -/

/-- C3 counterexample.  On the spec's §8 pool state (capacity 10, 8
booked, base 100, floor 80, ceiling 250, equal thirds weights, rate 0.1,
event 5 days out, no recent demand) with an empty price cache, `create`
resolves the price through its own `calculateDynamicPrice` and gets
190.00, while `calculateCurrentPrice` returns a `finalPrice` of 115.00
for the same pool state: the booking path does not use the canonical
weighted formula. -/
theorem book_price_formula_counterexample :
    calculateDynamicPrice 1 stateNearFull.event 1 = 190 ∧
    (calculateCurrentPrice stateNearFull.event 0 0).finalPrice = 115 ∧
    (∃ st' r, createBooking envStd stateNearFull 1 "a@b.com" = .ok (st', r) ∧
      r.pricePerTicket = calculateDynamicPrice 1 stateNearFull.event 1) ∧
    (190 : ℚ) ≠ 115 := by
  have hdyn : calculateDynamicPrice 1 stateNearFull.event 1 = 190 := by
    unfold calculateDynamicPrice stateNearFull eventCents
    norm_num [clampPrice, round2]
  refine ⟨hdyn, ?_, ?_, by norm_num⟩
  · unfold calculateCurrentPrice stateNearFull eventCents
      calculateTimeBasedAdjustment calculateDemandBasedAdjustment
      calculateInventoryBasedAdjustment msPerDay
    norm_num [clampPrice, round2]
  · refine ⟨createSuccessor envStd stateNearFull 1 "a@b.com",
      createReceipt envStd stateNearFull 1,
      createBooking_ok_iff.mpr ⟨by decide, rfl, rfl, by decide, by decide,
        rfl, rfl⟩, ?_⟩
    show resolvedPrice envStd stateNearFull 1 =
      calculateDynamicPrice 1 stateNearFull.event 1
    rfl

/-- C3 as amended.  On a price-cache miss, `create` resolves the price
with the bookings service's own `calculateDynamicPrice` — the linear
prospective-utilization model anchored at `basePrice` — and caches that
value; in general this differs from the `finalPrice` of
`calculateCurrentPrice` (see the counterexample). -/
theorem book_miss_uses_dynamic_price (env : Env) (st : SysState) (t : ℤ)
    (em : String) (st' : SysState) (r : BookingReceipt)
    (hmiss : st.priceCache = none)
    (hok : createBooking env st t em = .ok (st', r)) :
    r.pricePerTicket = calculateDynamicPrice env.utilWeight st.event t ∧
    st'.priceCache =
      some (calculateDynamicPrice env.utilWeight st.event t) ∧
    r.totalAmount =
      round2 (calculateDynamicPrice env.utilWeight st.event t * (t : ℚ)) := by
  obtain ⟨-, -, -, -, -, rfl, rfl⟩ := createBooking_ok_iff.mp hok
  have hres : resolvedPrice env st t =
      calculateDynamicPrice env.utilWeight st.event t := by
    unfold resolvedPrice
    rw [hmiss]
  exact ⟨hres, by simp [createSuccessor, hres], by simp [createReceipt, hres]⟩

/-- Closed witness for the amended C3 on the fresh pool with a cold
cache. -/
theorem book_miss_uses_dynamic_price_witness :
    (createReceipt envStd stateFresh 2).pricePerTicket =
      calculateDynamicPrice 1 stateFresh.event 2 ∧
    (createSuccessor envStd stateFresh 2 "a@b.com").priceCache =
      some (calculateDynamicPrice 1 stateFresh.event 2) ∧
    (createReceipt envStd stateFresh 2).totalAmount =
      round2 (calculateDynamicPrice 1 stateFresh.event 2 * (2 : ℚ)) :=
  book_miss_uses_dynamic_price envStd stateFresh 2 "a@b.com"
    (createSuccessor envStd stateFresh 2 "a@b.com")
    (createReceipt envStd stateFresh 2) rfl
    (createBooking_ok_iff.mpr ⟨by decide, rfl, rfl, by decide, by decide,
      rfl, rfl⟩)

/-! ## Claim C2 -/

/-- C2 at its failing input.  Booking 2 tickets at a committed price of
50.00 each while paying `amountPaid = 1`: the variant `create` persists a
`totalAmount` of 1.00 — the caller-supplied amount — although the
commit-time price times quantity is 100.00.  (The main service's
`create`, by contrast, persists `round2 (pricePerTicket * ticketCount)`
by construction: see `createdBooking`.) -/
theorem variant_persists_amountPaid :
    ∃ st' r,
      createBookingVariant envStd stateCacheHit 2 "a@b.com" 1 =
        .ok (st', r) ∧
      st'.bookings.map Booking.totalAmount = [1] ∧
      r.totalAmount = 1 ∧
      r.pricePerTicket * 2 = 100 ∧
      round2 (r.pricePerTicket * 2) ≠ r.totalAmount ∧
      (∀ env st t em st'' r',
        createBooking env st t em = .ok (st'', r') →
        r'.totalAmount = round2 (r'.pricePerTicket * (t : ℚ))) := by
  have hr2 : round2 (1 : ℚ) = 1 := by
    norm_num [round2]
  refine ⟨_, _, rfl, ?_, ?_, ?_, ?_, ?_⟩
  · show [round2 (1 : ℚ)] = [(1 : ℚ)]
    rw [hr2]
  · exact hr2
  · show (50 : ℚ) * 2 = 100
    norm_num
  · show round2 ((50 : ℚ) * 2) ≠ round2 (1 : ℚ)
    rw [hr2]
    norm_num [round2]
  · intro env st t em st'' r' hok
    obtain ⟨-, -, -, -, -, -, rfl⟩ := createBooking_ok_iff.mp hok
    rfl

/-! ## Claim C6 -/

/-- C6 at its failing input.  After a book for event `e1` by customer
`a@b.com` commits at epoch 1 over `staleSnapshotCache`, the pool-snapshot
key `event:e1` — a key the read paths consult — still holds the epoch-0
entry, because `clearBookingCaches` deletes the never-written keys
`events:e1` and `event_price:e1` instead.  The price key `event:e1:price`
is nevertheless fresh, since `setEventPrice` overwrites it inside the
transaction, and every key on the `clearBookingCaches` list is gone. -/
theorem stale_pool_snapshot_after_book :
    eventSnapshotKey "e1" ∈ readPathKeys "e1" "a@b.com" ∧
    postBookCache "e1" "a@b.com" 1 staleSnapshotCache
      (eventSnapshotKey "e1") = some 0 ∧
    postBookCache "e1" "a@b.com" 1 staleSnapshotCache
      (eventPriceKey "e1") = some 1 ∧
    (∀ k ∈ clearBookingCachesKeys "e1" "a@b.com",
      postBookCache "e1" "a@b.com" 1 staleSnapshotCache k = none) := by
  decide

/-! ## Claim C9 -/

/-- C9 counterexample: it is not the case that both `create` and
`cancelBooking` read the pool row under the exclusive lock — the cancel
path's event select takes no lock. -/
theorem mutual_exclusion_counterexample :
    ¬(createEventSelect.forUpdate = true ∧
      cancelEventSelect.forUpdate = true) := by
  decide

/-- C9 as amended.  Only `create` acquires the pool row's exclusive lock
before reading `bookedTickets`; `cancelBooking` reads the pool with a
plain select, so the serialization guarantee covers only bookings: two
cancellations whose unlocked event reads both observe the same snapshot
(5 booked) both commit, and the final state has `bookedTickets = 2` while
no reservation survives — an overlapping-read lost update the claim says
cannot happen. -/
theorem mutual_exclusion_amended :
    createEventSelect.forUpdate = true ∧
    cancelEventSelect.forUpdate = false ∧
    cancelBookingSelect.forUpdate = false ∧
    (∃ st1 c1 st2 c2,
      cancelBookingWithSnapshot envStd stateTwoBookings
        stateTwoBookings.event 1 "a@b.com" = .ok (st1, c1) ∧
      cancelBookingWithSnapshot envStd st1
        stateTwoBookings.event 2 "a@b.com" = .ok (st2, c2) ∧
      st2.bookings = [] ∧
      st2.event.bookedTickets = 2 ∧
      sumTickets st2.bookings = 0) := by
  refine ⟨rfl, rfl, rfl, _, _, _, _, rfl, rfl, rfl, rfl, rfl⟩

/-! ## Claim C10 -/

theorem validateBookingInput_error_cases {t : ℤ} {em : String}
    {e : BookingError} (h : validateBookingInput t em = some e) :
    e = .invalidTicketCount ∨ e = .tooManyTickets ∨ e = .invalidEmail := by
  unfold validateBookingInput at h
  split_ifs at h
  · injection h with h
    exact Or.inl h.symm
  · injection h with h
    exact Or.inr (Or.inl h.symm)
  · injection h with h
    exact Or.inr (Or.inr h.symm)

theorem createBooking_ne_rateLimited (env : Env) (st : SysState) (t : ℤ)
    (em : String) (hrate : env.rateLimitOk = true) :
    createBooking env st t em ≠ .error .rateLimited := by
  unfold createBooking
  cases hval : validateBookingInput t em with
  | some e =>
    rcases validateBookingInput_error_cases hval with rfl | rfl | rfl <;>
      simp
  | none =>
    rw [hrate]
    split_ifs <;> simp_all

/-- C10.  The rate limit fails open with the cache: whenever the backend
is disconnected or a cache operation throws, `RedisService.checkRateLimit`
returns `true`, the booking service's rate-limit gate passes, and
`create` can never fail with the rate-limit error — rate limiting is
silently disabled while booking proceeds. -/
theorem rate_limit_fails_open (r : RedisState) (now : ℤ)
    (h : r.isConnected = false ∨ r.opFails = true) :
    redisCheckRateLimit r 5 60000 now = true ∧
    bookingsCheckRateLimit r now = .ok () ∧
    (∀ st t em w,
      createBooking
        { now := now, rateLimitOk := redisCheckRateLimit r 5 60000 now
          utilWeight := w } st t em ≠ .error .rateLimited) := by
  have htrue : redisCheckRateLimit r 5 60000 now = true := by
    unfold redisCheckRateLimit redisGet
    rcases h with h | h
    · simp [h]
    · by_cases hc : r.isConnected
      · simp [hc, h]
      · simp [hc]
  refine ⟨htrue, ?_, ?_⟩
  · unfold bookingsCheckRateLimit
    rw [htrue]
    simp
  · intro st t em w
    exact createBooking_ne_rateLimited _ st t em htrue

/-- Closed witness for C10 with the backend disconnected. -/
theorem rate_limit_fails_open_witness :
    redisCheckRateLimit redisDown 5 60000 0 = true ∧
    bookingsCheckRateLimit redisDown 0 = .ok () ∧
    createBooking
      { now := 0, rateLimitOk := redisCheckRateLimit redisDown 5 60000 0
        utilWeight := 1 } stateFresh 2 "a@b.com" ≠
      .error .rateLimited := by
  have h := rate_limit_fails_open redisDown 0 (Or.inl rfl)
  exact ⟨h.1, h.2.1, h.2.2 stateFresh 2 "a@b.com" 1⟩

end Ticketing
